import Mathlib

/-!
Verification of the response-ingestion and rendering helpers of the
AI-Agent-with-Daemo repository.

The definitions below are a shallow embedding of the frontend helpers in
`frontend/src/App.tsx` (`safeParsePreview`, `isSummaryObject`,
`normalizeToTable`, `extractTextFromJSX`, `parseDaemoResponse`, `parseCSV`,
`sendMessage`), translated function by function from the TypeScript source.
JavaScript runtime values reachable by this code are modelled by the
inductive type `Jv`; JSON numbers are kept as their source token (the code
never does arithmetic on them), and `JSON.parse` is embedded as the
fuel-indexed recursive-descent parser `jsonParse` over the RFC 8259 grammar.
The permissive `Function("return (…)")` fallback of `safeParsePreview` is an
arbitrary-code escape hatch; it is modelled as a function parameter
`evalFn`, treated as a black box, threaded through the definitions.
-/

namespace Daemo

/-- A JavaScript value as reachable by the parsing helpers: `null`/`undefined`
collapse to `.null` (the code only ever distinguishes them by truthiness),
numbers keep their source token, objects are insertion-ordered key/value
lists with unique keys. -/
inductive Jv where
  | null
  | bool (b : Bool)
  | num (tok : String)
  | str (s : String)
  | arr (elems : List Jv)
  | obj (fields : List (String × Jv))
deriving Inhabited

/-- JavaScript `WhiteSpace`/`LineTerminator` characters as removed by
`String.prototype.trim` (note: includes U+FEFF and NBSP). -/
def jsWhitespaceChar (c : Char) : Bool :=
  let n := c.toNat
  n == 0x20 || n == 0x09 || n == 0x0A || n == 0x0B || n == 0x0C || n == 0x0D ||
  n == 0xA0 || n == 0x1680 || (0x2000 ≤ n && n ≤ 0x200A) ||
  n == 0x2028 || n == 0x2029 || n == 0x202F || n == 0x205F || n == 0x3000 ||
  n == 0xFEFF

/-- `String.prototype.trim` on a character list. -/
def jsTrimL (cs : List Char) : List Char :=
  ((cs.dropWhile jsWhitespaceChar).reverse.dropWhile jsWhitespaceChar).reverse

/-- `String.prototype.trim`. -/
def jsTrim (s : String) : String := String.mk (jsTrimL s.data)

/-- `haystack.includes(needle)` (JS substring containment). -/
def containsSub (needle : List Char) : List Char → Bool
  | [] => needle.isEmpty
  | c :: rest => needle.isPrefixOf (c :: rest) || containsSub needle rest

/-- JSON whitespace (RFC 8259: space, tab, LF, CR only). -/
def jsonWsChar (c : Char) : Bool :=
  [0x20, 0x09, 0x0A, 0x0D].contains c.toNat

def skipJsonWs (cs : List Char) : List Char := cs.dropWhile jsonWsChar

/-- Value of one hexadecimal digit, by code point arithmetic. -/
def hexVal (c : Char) : Option Nat :=
  let n := c.toNat
  if n ≥ 48 && n ≤ 57 then some (n - 48)
  else if n ≥ 97 && n ≤ 102 then some (n - 87)
  else if n ≥ 65 && n ≤ 70 then some (n - 55)
  else none

/-- JSON string body (after the opening quote): returns the decoded content
and the input remaining after the closing quote. `\uXXXX` escapes outside
the valid `Char` range decode to U+0000 (a lone-surrogate approximation). -/
def pJString : List Char → Option (List Char × List Char)
  | [] => none
  | '"' :: rest => some ([], rest)
  | '\\' :: 'u' :: h1 :: h2 :: h3 :: h4 :: rest =>
    match hexVal h1, hexVal h2, hexVal h3, hexVal h4 with
    | some a, some b, some c, some d =>
      match pJString rest with
      | some (s, r) => some (Char.ofNat (4096 * a + 256 * b + 16 * c + d) :: s, r)
      | none => none
    | _, _, _, _ => none
  | '\\' :: e :: rest =>
    let esc : Option Char :=
      (([('"', 0x22), ('\\', 0x5C), ('/', 0x2F), ('b', 0x08), ('f', 0x0C),
         ('n', 0x0A), ('r', 0x0D), ('t', 0x09)] : List (Char × Nat)).find?
        (fun p => p.1 == e)).map (fun p => Char.ofNat p.2)
    match esc with
    | some ch =>
      match pJString rest with
      | some (s, r) => some (ch :: s, r)
      | none => none
    | none => none
  | c :: rest =>
    if c.toNat < 0x20 then none
    else
      match pJString rest with
      | some (s, r) => some (c :: s, r)
      | none => none

/-- JSON number token (sign, integer part without leading zeros, optional
fraction, optional exponent); returns the token characters and the rest. -/
def pJNumber (cs : List Char) : Option (List Char × List Char) :=
  let (sign, cs1) :=
    match cs with
    | '-' :: t => (['-'], t)
    | _ => (([] : List Char), cs)
  let intPart : Option (List Char × List Char) :=
    match cs1 with
    | '0' :: t => some (['0'], t)
    | c :: t =>
      if c.isDigit then
        some (c :: t.takeWhile Char.isDigit, t.dropWhile Char.isDigit)
      else none
    | [] => none
  match intPart with
  | none => none
  | some (ip, cs2) =>
    let fracPart : Option (List Char × List Char) :=
      match cs2 with
      | '.' :: t =>
        let ds := t.takeWhile Char.isDigit
        if ds.isEmpty then none else some ('.' :: ds, t.dropWhile Char.isDigit)
      | _ => some ([], cs2)
    match fracPart with
    | none => none
    | some (fp, cs3) =>
      let expPart : Option (List Char × List Char) :=
        match cs3 with
        | e :: t =>
          if e == 'e' || e == 'E' then
            let (sgn, t1) :=
              match t with
              | '+' :: t2 => (['+'], t2)
              | '-' :: t2 => (['-'], t2)
              | _ => (([] : List Char), t)
            let ds := t1.takeWhile Char.isDigit
            if ds.isEmpty then none
            else some (e :: (sgn ++ ds), t1.dropWhile Char.isDigit)
          else some ([], cs3)
        | [] => some ([], cs3)
      match expPart with
      | none => none
      | some (ep, cs4) => some (sign ++ ip ++ fp ++ ep, cs4)

/-- Insert a key into an object's field list with JavaScript semantics:
an existing key keeps its position and gets the new value, a new key is
appended. -/
def objInsert (fields : List (String × Jv)) (k : String) (v : Jv) :
    List (String × Jv) :=
  if fields.any (fun kv => kv.1 == k) then
    fields.map (fun kv => if kv.1 == k then (k, v) else kv)
  else fields ++ [(k, v)]

mutual

/-- JSON value parser (fuel-indexed recursive descent); expects its input
to start directly at a value (no leading whitespace). -/
def pJVal : Nat → List Char → Option (Jv × List Char)
  | 0, _ => none
  | fuel + 1, cs =>
    match cs with
    | 't' :: 'r' :: 'u' :: 'e' :: r => some (.bool true, r)
    | 'f' :: 'a' :: 'l' :: 's' :: 'e' :: r => some (.bool false, r)
    | 'n' :: 'u' :: 'l' :: 'l' :: r => some (.null, r)
    | '"' :: r =>
      match pJString r with
      | some (s, r2) => some (.str (String.mk s), r2)
      | none => none
    | '[' :: r =>
      match skipJsonWs r with
      | ']' :: r2 => some (.arr [], r2)
      | r1 => pJArrItems fuel r1 []
    | '{' :: r =>
      match skipJsonWs r with
      | '}' :: r2 => some (.obj [], r2)
      | r1 => pJObjItems fuel r1 []
    | _ =>
      match pJNumber cs with
      | some (tok, r) => some (.num (String.mk tok), r)
      | none => none

/-- Comma-separated array elements up to the closing bracket. -/
def pJArrItems : Nat → List Char → List Jv → Option (Jv × List Char)
  | 0, _, _ => none
  | fuel + 1, cs, acc =>
    match pJVal fuel cs with
    | none => none
    | some (v, r) =>
      match skipJsonWs r with
      | ',' :: r2 => pJArrItems fuel (skipJsonWs r2) (acc ++ [v])
      | ']' :: r2 => some (.arr (acc ++ [v]), r2)
      | _ => none

/-- Comma-separated object members up to the closing brace (duplicate keys:
last value wins, at the first occurrence's position). -/
def pJObjItems : Nat → List Char → List (String × Jv) → Option (Jv × List Char)
  | 0, _, _ => none
  | fuel + 1, cs, acc =>
    match cs with
    | '"' :: r =>
      match pJString r with
      | none => none
      | some (k, r1) =>
        match skipJsonWs r1 with
        | ':' :: r2 =>
          match pJVal fuel (skipJsonWs r2) with
          | none => none
          | some (v, r3) =>
            match skipJsonWs r3 with
            | ',' :: r4 => pJObjItems fuel (skipJsonWs r4) (objInsert acc (String.mk k) v)
            | '}' :: r4 => some (.obj (objInsert acc (String.mk k) v), r4)
            | _ => none
        | _ => none
    | _ => none

end

/-- `JSON.parse`: strict JSON parsing of a whole string; `none` models a
thrown `SyntaxError`. -/
def jsonParse (s : String) : Option Jv :=
  match pJVal (2 * s.data.length + 4) (skipJsonWs s.data) with
  | some (v, r) => if (skipJsonWs r).isEmpty then some v else none
  | none => none

/-- `true` when the numeric token denotes zero (all mantissa digits `0`). -/
def numTokIsZero (tok : String) : Bool :=
  ((tok.data.takeWhile (fun c => c != 'e' && c != 'E')).filter Char.isDigit).all
    (fun c => c == '0')

/-- JavaScript truthiness of a `Jv` (`null`/`undefined`, `false`, `0`, `""`
are falsy; every object or array is truthy). -/
def jvTruthy : Jv → Bool
  | .null => false
  | .bool b => b
  | .num tok => !(numTokIsZero tok)
  | .str s => !s.isEmpty
  | .arr _ => true
  | .obj _ => true

/-- `typeof x === "object" && x` — a non-null object or an array. -/
def isObjectLike : Jv → Bool
  | .arr _ => true
  | .obj _ => true
  | _ => false

/-- `Object.keys` (arrays yield their index strings). -/
def jvKeys : Jv → List String
  | .obj fields => fields.map (fun kv => kv.1)
  | .arr xs => (List.range xs.length).map toString
  | _ => []

/-- Optional-chaining property access `x?.k` (`none` models `undefined`). -/
def jvGet : Jv → String → Option Jv
  | .obj fields, k => (fields.find? (fun kv => kv.1 == k)).map (fun kv => kv.2)
  | _, _ => none

/-- `x?.k1?.k2`. -/
def jvGet2 (x : Jv) (k1 k2 : String) : Option Jv :=
  match jvGet x k1 with
  | some y => jvGet y k2
  | none => none

/-- Property access defaulting to `undefined`/`null`. -/
def jvGetD (x : Jv) (k : String) : Jv := (jvGet x k).getD .null

/-- Embeds `safeParsePreview` (App.tsx:1104): the result value paired with
whether the permissive `Function`-evaluation fallback ran. `evalFn` models
that fallback (an arbitrary JS evaluation whose result, or `null` on throw,
is returned). -/
def safeParsePreviewB (evalFn : String → Jv) : Jv → Jv × Bool
  | .null => (.null, false)
  | .arr xs => (.arr xs, false)
  | .obj fields => (.obj fields, false)
  | .bool _ => (.null, false)
  | .num _ => (.null, false)
  | .str s =>
    let str := jsTrim s
    if str == "" || str == "[]" || str == "\x7b\x7d" then (.null, false)
    else
      match jsonParse str with
      | some v => (v, false)
      | none => (evalFn str, true)

/-- `safeParsePreview` (App.tsx:1104). -/
def safeParsePreview (evalFn : String → Jv) (preview : Jv) : Jv :=
  (safeParsePreviewB evalFn preview).1

/-- `SUMMARY_KEYS` (App.tsx:1129): keys that indicate a summary/meta object
rather than tabular row data. -/
def SUMMARY_KEYS : List String :=
  ["totalProducts", "totalQuantity", "totalValue",
   "lowStockCount", "outOfStockCount", "executionTime",
   "meta", "status", "error", "functionsUsed"]

/-- `isSummaryObject` (App.tsx:1135). -/
def isSummaryObject (row : Jv) : Bool :=
  let keys := jvKeys row
  !keys.isEmpty && keys.all (fun k => SUMMARY_KEYS.contains k)

/-- `normalizeToTable` (App.tsx:1141): arrays keep truthy object-typed
elements, bare objects are wrapped as a single row after stripping `meta`,
empty results become `none`. -/
def normalizeToTable : Jv → Option (List Jv)
  | .null => none
  | .arr xs =>
    if xs.isEmpty then none
    else
      let rows := xs.filter (fun r => jvTruthy r && isObjectLike r)
      if rows.isEmpty then none else some rows
  | .obj fields =>
    let rest := fields.filter (fun kv => kv.1 != "meta")
    if rest.isEmpty then none else some [.obj rest]
  | _ => none

/-- Global regex replace of `<[^>]+>` by `repl` (a `<` with no later `>` on
a nonempty tag body is kept literally and scanning resumes after it). -/
def stripTagsWith (repl : List Char) : Nat → List Char → List Char
  | 0, cs => cs
  | fuel + 1, cs =>
    match cs with
    | [] => []
    | '<' :: rest =>
      let span := rest.takeWhile (fun c => c != '>')
      match rest.drop span.length with
      | '>' :: tail =>
        if span.isEmpty then '<' :: stripTagsWith repl fuel rest
        else repl ++ stripTagsWith repl fuel tail
      | _ => '<' :: stripTagsWith repl fuel rest
    | c :: rest => c :: stripTagsWith repl fuel rest

/-- Global regex replace of runs matching `\s+` by one space. -/
def collapseWsFlag : Bool → List Char → List Char
  | _, [] => []
  | inWs, c :: rest =>
    if jsWhitespaceChar c then
      if inWs then collapseWsFlag true rest
      else ' ' :: collapseWsFlag true rest
    else c :: collapseWsFlag false rest

/-- The `stripTags` lambda of `extractTextFromJSX` (App.tsx:1174): drop tags,
collapse whitespace, trim. -/
def stripTagsClean (cs : List Char) : String :=
  String.mk (jsTrimL (collapseWsFlag false (stripTagsWith [] (cs.length + 1) cs)))

/-- Split at the earliest occurrence of `needle`: the part before it and the
part after it. -/
def splitAtSub (needle : List Char) : List Char → Option (List Char × List Char)
  | [] => if needle.isEmpty then some ([], []) else none
  | c :: rest =>
    if needle.isPrefixOf (c :: rest) then some ([], (c :: rest).drop needle.length)
    else
      match splitAtSub needle rest with
      | some (pre, post) => some (c :: pre, post)
      | none => none

/-- All captures of a regex of the form `openLit[^>]*>([\s\S]*?)closeLit`
(with, when `needle` is given, the `[^>]*` span required to contain it, as
in `<div[^>]*font-bold[^>]*>`): the lazy capture between the end of the
open tag and the earliest close literal, scanning left to right and
resuming after each match, as `String.prototype.matchAll` does. -/
def scanMatches (openLit : List Char) (needle : Option (List Char))
    (closeLit : List Char) : Nat → List Char → List (List Char)
  | 0, _ => []
  | fuel + 1, cs =>
    match cs with
    | [] => []
    | _ :: rest =>
      if openLit.isPrefixOf cs then
        let afterOpen := cs.drop openLit.length
        let span := afterOpen.takeWhile (fun ch => ch != '>')
        match afterOpen.drop span.length with
        | '>' :: bodyStart =>
          let okAttr :=
            match needle with
            | none => true
            | some nd => containsSub nd span
          if okAttr then
            match splitAtSub closeLit bodyStart with
            | some (content, restAfter) =>
              content :: scanMatches openLit needle closeLit fuel restAfter
            | none => scanMatches openLit needle closeLit fuel rest
          else scanMatches openLit needle closeLit fuel rest
        | _ => scanMatches openLit needle closeLit fuel rest
      else scanMatches openLit needle closeLit fuel rest

/-- The sub-card title / bold value pairing of `extractTextFromJSX`
(App.tsx:1184): each title is joined with the same-index bold value as
`title: value` when that value exists and is truthy, and is emitted bare
otherwise; values beyond the titles are never consulted. -/
def pairSubCards : List String → List String → List String
  | [], _ => []
  | t :: ts, [] => t :: pairSubCards ts []
  | t :: ts, v :: vs =>
    (if v != "" then t ++ ": " ++ v else t) :: pairSubCards ts vs

/-- `Array.prototype.join("\n")`. -/
def joinNL : List String → String
  | [] => ""
  | [s] => s
  | s :: rest => s ++ "\n" ++ joinNL rest

/-- `extractTextFromJSX` (App.tsx:1165). -/
def extractTextFromJSX (jsx : String) : String :=
  let cs := jsx.data
  let fuel := cs.length + 1
  let titles := scanMatches "<CardTitle".data none "</CardTitle>".data fuel cs
  let descriptions :=
    scanMatches "<CardDescription".data none "</CardDescription>".data fuel cs
  let paragraphs := scanMatches "<p".data none "</p>".data fuel cs
  let boldDivs := scanMatches "<div".data (some "font-bold".data) "</div>".data fuel cs
  let lines0 : List String :=
    match titles with
    | [] => []
    | t0 :: _ => [stripTagsClean t0]
  let subTitles := (titles.drop 1).map stripTagsClean
  let boldValues := boldDivs.map stripTagsClean
  let lines1 := lines0 ++ pairSubCards subTitles boldValues
  let lines2 :=
    (descriptions ++ paragraphs).foldl
      (fun acc m =>
        let t := stripTagsClean m
        if t != "" && !(acc.any (fun l => containsSub (t.data.take 30) l.data)) then
          acc ++ [t]
        else acc)
      lines1
  if !lines2.isEmpty then joinNL lines2
  else String.mk (jsTrimL (collapseWsFlag false (stripTagsWith [' '] fuel cs)))




/-- The retained-table update of `parseDaemoResponse`'s stored-preview loop
(App.tsx:1232): a normalized candidate whose first row is a non-summary
object always overwrites the retained table; otherwise the candidate is
kept only when no table is retained yet. -/
def chooseTable (table : Option (List Jv)) : List Jv → Option (List Jv)
  | [] => table
  | fr :: rest =>
    if isObjectLike fr && !isSummaryObject fr then some (fr :: rest)
    else
      match table with
      | none => some (fr :: rest)
      | some t => some t

/-- One iteration of the `for (const item of stored)` loop of
`parseDaemoResponse` (App.tsx:1225). -/
def applyStoredItem (evalFn : String → Jv) (table : Option (List Jv))
    (item : Jv) : Option (List Jv) :=
  match jvGet item "preview" with
  | none => table
  | some p =>
    if !jvTruthy p then table
    else
      match safeParsePreview evalFn p with
      | .null => table
      | parsed =>
        match normalizeToTable parsed with
        | none => table
        | some normalized => chooseTable table normalized

/-- An object spread `const \x7b meta, ...clean \x7d = result` as a field
list (arrays spread to index-keyed fields). -/
def jvObjFieldsNoMeta : Jv → List (String × Jv)
  | .obj fields => fields.filter (fun kv => kv.1 != "meta")
  | .arr xs =>
    ((List.range xs.length).map toString).zip xs
  | _ => []

/-- One iteration of the `for (const tool of data.toolInteractions)` loop of
`parseDaemoResponse` (App.tsx:1221): the stored-preview scan, then the
direct `tool.result.result` fallback when no table was found. -/
def applyTool (evalFn : String → Jv) (table : Option (List Jv)) (tool : Jv) :
    Option (List Jv) :=
  let t1 :=
    match jvGet2 tool "result" "stored" with
    | some (.arr items) => items.foldl (applyStoredItem evalFn) table
    | _ => table
  match t1 with
  | some t => some t
  | none =>
    match jvGet2 tool "result" "result" with
    | some r =>
      if jvTruthy r && isObjectLike r && !jvTruthy (jvGetD r "error") then
        let clean := jvObjFieldsNoMeta r
        if clean.isEmpty then none else some [.obj clean]
      else none
    | none => none

/-- The table derivation of `parseDaemoResponse` (App.tsx:1219). -/
def tablePart (evalFn : String → Jv) (data : Jv) : Option (List Jv) :=
  match jvGet data "toolInteractions" with
  | some (.arr tools) => tools.foldl (applyTool evalFn) none
  | _ => none

/-- The text derivation of `parseDaemoResponse` before the final fallback
(App.tsx:1209): a non-empty trimmed `text` field verbatim, else readable
text extracted from a non-empty `jsx` field, else the empty string. -/
def textPart (data : Jv) : String :=
  let jsxText :=
    match jvGet data "jsx" with
    | some (.str j) => if !(jsTrim j == "") then extractTextFromJSX j else ""
    | _ => ""
  match jvGet data "text" with
  | some (.str s) => if !(jsTrim s == "") then jsTrim s else jsxText
  | _ => jsxText

/-- The synthesized text when a table was found but no text (App.tsx:1258). -/
def foundText (n : Nat) : String :=
  "Found " ++ toString n ++ " result" ++ (if n != 1 then "s" else "") ++
  ". See table below."

/-- The fixed notice when neither text nor table exist (App.tsx:1260). -/
def noReadableText : String := "⚠️ No readable response received."

/-- `parseDaemoResponse` (App.tsx:1205): derived text and table with the
final empty-text fallback. -/
def parseDaemoResponse (evalFn : String → Jv) (data : Jv) :
    String × Option (List Jv) :=
  let text := textPart data
  let table := tablePart evalFn data
  if text == "" then
    match table with
    | some t => (foundText t.length, some t)
    | none => (noReadableText, none)
  else (text, table)

/-- A permissive-evaluation stand-in that models a `Function` body throwing
(so the fallback yields `null`); used to instantiate `evalFn` in examples. -/
def evalNone : String → Jv := fun _ => .null

/-- The row-data preview of the spec's table-precedence example. -/
def rowSku : Jv := .obj [("sku", .str "A"), ("qty", .num "1")]

/-- The summary preview of the spec's table-precedence example. -/
def rowTotal : Jv := .obj [("totalProducts", .num "5")]

/-- A tool interaction whose `result.stored` carries one preview. -/
def mkTool (preview : Jv) : Jv :=
  .obj [("result", .obj [("stored", .arr [.obj [("preview", preview)]])])]

/-- A payload whose tool interactions carry the given previews in order. -/
def mkPayload (previews : List Jv) : Jv :=
  .obj [("toolInteractions", .arr (previews.map mkTool))]

/-- `String.prototype.split` on a single separator character. -/
def splitCharAux (sep : Char) : List Char → List Char → List String
  | [], cur => [String.mk cur.reverse]
  | c :: rest, cur =>
    if c == sep then String.mk cur.reverse :: splitCharAux sep rest []
    else splitCharAux sep rest (c :: cur)

/-- The character-by-character field scan of one CSV line (App.tsx:1268): a
double quote toggles the in-quotes state (and is dropped), a comma splits
only outside quotes, every field is trimmed. -/
def csvSplitLineAux : List Char → Bool → List Char → List String
  | [], _, current => [String.mk (jsTrimL current.reverse)]
  | c :: rest, inQuotes, current =>
    if c == '"' then csvSplitLineAux rest (!inQuotes) current
    else if c == ',' && !inQuotes then
      String.mk (jsTrimL current.reverse) :: csvSplitLineAux rest inQuotes []
    else csvSplitLineAux rest inQuotes (c :: current)

/-- One CSV line as its trimmed fields. -/
def csvSplitLine (s : String) : List String := csvSplitLineAux s.data false []

/-- `h.replace(/^\uFEFF/, "")`: drop one leading byte-order mark. -/
def stripBOMOnce (s : String) : String :=
  match s.data with
  | '\uFEFF' :: t => String.mk t
  | _ => s

/-- The header cleanup mapped over the whole header row (App.tsx:1290). -/
def headerClean (s : String) : String := jsTrim (stripBOMOnce s)

/-- `obj[header] = value` over a string-valued object. -/
def objInsertStr (fields : List (String × String)) (k v : String) :
    List (String × String) :=
  if fields.any (fun kv => kv.1 == k) then
    fields.map (fun kv => if kv.1 == k then (k, v) else kv)
  else fields ++ [(k, v)]

/-- `headers.forEach((header, index) => obj[header] = row[index] ?? "")`. -/
def buildRowAux (fields : List (String × String)) :
    List String → List String → List (String × String)
  | [], _ => fields
  | h :: hs, [] => buildRowAux (objInsertStr fields h "") hs []
  | h :: hs, v :: vs => buildRowAux (objInsertStr fields h v) hs vs

/-- One data row as a header-keyed object. -/
def buildRow (headers row : List String) : List (String × String) :=
  buildRowAux [] headers row

/-- `parseCSV` (App.tsx:1267): rows are objects keyed by the cleaned header
row; fully-empty rows are dropped; fewer than two lines yield no rows. -/
def parseCSV (csvText : String) : List (List (String × String)) :=
  let rows := (splitCharAux '\n' csvText.data []).map csvSplitLine
  if rows.length < 2 then []
  else
    let headers := (rows.headD []).map headerClean
    ((rows.drop 1).filter (fun row => row.any (fun cell => !(jsTrim cell == "")))).map
      (buildRow headers)

/-- Message roles (App.tsx:1092). -/
inductive Role where
  | user
  | bot
deriving DecidableEq

/-- Message status values (App.tsx:1096). -/
inductive MStatus where
  | ok
  | error
  | warning
deriving DecidableEq

/-- A chat `Message` (App.tsx:1090), without the random id and timestamp
(neither is read by any logic under study). The outer `Option` on `table`
models the field being absent from the literal; the inner one models the
`any[] | null` value. -/
structure Msg where
  role : Role
  text : String
  status : Option MStatus
  table : Option (Option (List Jv))

/-- The component state read and written by `sendMessage` (App.tsx:1379):
the message list and the `loading` flag, plus an explicit count of open
requests (implicit in the code: one `fetch` between `setLoading(true)` and
the `finally`). -/
structure ChatState where
  messages : List Msg
  loading : Bool
  inflight : Nat

/-- The initial component state. -/
def chatInit : ChatState := { messages := [], loading := false, inflight := 0 }

/-- How one chat request ends: a parsed JSON body, a non-success HTTP
status, an unparseable body, a timeout/abort of the 30s `AbortSignal`, or a
network error carrying `err.message` (`""` when the error has none). -/
inductive FetchOutcome where
  | ok (body : Jv)
  | httpError (status : Nat)
  | badJson
  | timeout
  | netError (msg : String)

/-- Failure outcomes are everything but a parsed body. -/
def isFailureOutcome : FetchOutcome → Bool
  | .ok _ => false
  | _ => true

/-- The timeout message of the catch block (App.tsx:1438). -/
def timeoutText : String :=
  "⏱ Request timed out. The server may be starting up — please try again."

/-- The generic-failure message when the error carries no message
(App.tsx:1441). -/
def connErrorText : String :=
  "Connection error. Please check your network and try again."

/-- The user-facing text of the catch block (App.tsx:1432): timeouts and
aborts get `timeoutText`, an error with a message gets `Error: ` plus the
message, anything else the generic connection-error text. -/
def errText : FetchOutcome → String
  | .timeout => timeoutText
  | .httpError n => "Error: " ++ ("Server responded with status " ++ toString n)
  | .badJson => "Error: " ++ "Invalid JSON response from server"
  | .netError m => if m == "" then connErrorText else "Error: " ++ m
  | .ok _ => ""

/-- The user message appended on send (App.tsx:1383). -/
def mkUserMsg (query : String) : Msg :=
  { role := .user, text := query, status := none, table := none }

/-- The bot message appended on success (App.tsx:1422). -/
def mkBotOk (evalFn : String → Jv) (body : Jv) : Msg :=
  { role := .bot, text := (parseDaemoResponse evalFn body).1, status := some .ok,
    table := some (parseDaemoResponse evalFn body).2 }

/-- The bot message appended in the catch block (App.tsx:1434): error
status, failure text, no `table` field. -/
def mkBotErr (out : FetchOutcome) : Msg :=
  { role := .bot, text := errText out, status := some .error, table := none }

/-- The user-visible events driving `sendMessage`: a send attempt with the
current input text, or the termination of the open request. -/
inductive ChatAct where
  | send (q : String)
  | finish (out : FetchOutcome)

/-- One transition of the chat component (App.tsx:1379): a send attempt is
ignored when the trimmed query is empty or a request is already loading,
and otherwise appends the user message and opens a request; a finish
appends exactly one bot message (success or error) and clears `loading`. -/
def chatStep (evalFn : String → Jv) (s : ChatState) : ChatAct → ChatState
  | .send q =>
    let query := jsTrim q
    if query == "" || s.loading then s
    else
      { messages := s.messages ++ [mkUserMsg query], loading := true,
        inflight := s.inflight + 1 }
  | .finish out =>
    if s.inflight == 0 then s
    else
      { messages :=
          s.messages ++
            [match out with
             | .ok body => mkBotOk evalFn body
             | o => mkBotErr o],
        loading := false, inflight := s.inflight - 1 }

/-- A run of the chat component over a sequence of events. -/
def chatRun (evalFn : String → Jv) (acts : List ChatAct) : ChatState :=
  acts.foldl (chatStep evalFn) chatInit

/-- Count of bot messages in a list. -/
def countBot (ms : List Msg) : Nat :=
  (ms.filter (fun m => m.role == Role.bot)).length

/-- The at-most-one-request invariant as a predicate on states. -/
def inflightInv (s : ChatState) : Prop :=
  s.inflight ≤ 1 ∧ (s.loading = true ↔ s.inflight = 1)

/-- Modelled from the spec: one streamed chunk of the accumulator described
in §4.4, carrying either an incremental `delta` fragment or a full `text`
snapshot. The streaming frontend accumulator is not among the repository
sources under study (the frontend there uses the non-streaming query path;
only the server-sent-event producer is present), so this type and the merge
below follow the spec's words. -/
structure Chunk where
  delta : Option String
  text : Option String

/-- Modelled from the spec: the per-chunk text merge of §4.4 — a `delta`
fragment is appended to the running text, a full `text` snapshot replaces
it outright, and a chunk carrying neither leaves it unchanged. -/
def mergeChunkText (running : String) (c : Chunk) : String :=
  match c.delta with
  | some d => running ++ d
  | none =>
    match c.text with
    | some t => t
    | none => running

/-- Modelled from the spec: merging a chunk sequence into the running
message text, starting from the empty placeholder text. -/
def mergeChunks (cs : List Chunk) : String := cs.foldl mergeChunkText ""

/-- First character of a string, used to separate fixed user-facing
messages. -/
def firstCharOpt (s : String) : Option Char := s.data.head?

theorem chatStep_preserves_inv (evalFn : String → Jv) (s : ChatState)
    (h : inflightInv s) (a : ChatAct) : inflightInv (chatStep evalFn s a) := by
  obtain ⟨h1, h2⟩ := h
  cases a with
  | send q =>
    simp only [chatStep]
    by_cases hq : (jsTrim q == "" || s.loading) = true
    · simpa [hq] using And.intro h1 h2
    · have hload : s.loading = false := by
        cases hl : s.loading
        · rfl
        · exact absurd (by simp [hl]) hq
      have hz : s.inflight = 0 := by
        have hne : s.inflight ≠ 1 := by
          intro he
          have hcontra := h2.mpr he
          rw [hload] at hcontra
          exact Bool.false_ne_true hcontra
        omega
      simp [hq, inflightInv, hz]
  | finish out =>
    simp only [chatStep]
    by_cases hz : (s.inflight == 0) = true
    · simpa [hz] using And.intro h1 h2
    · have hone : s.inflight = 1 := by
        simp only [beq_iff_eq] at hz
        omega
      simp [hz, inflightInv, hone]

theorem chatRun_inv (evalFn : String → Jv) (acts : List ChatAct) :
    inflightInv (chatRun evalFn acts) := by
  have base : inflightInv chatInit := by
    constructor
    · exact Nat.zero_le 1
    · constructor
      · intro h
        exact absurd h Bool.false_ne_true
      · intro h
        exact absurd h (by simp [chatInit])
  rw [chatRun]
  generalize chatInit = s0 at base ⊢
  induction acts generalizing s0 with
  | nil => exact base
  | cons a rest ih =>
    exact ih _ (chatStep_preserves_inv evalFn s0 base a)

theorem errorPrefix_ne_timeoutText (x : String) : ("Error: " ++ x) ≠ timeoutText := by
  obtain ⟨l⟩ := x
  intro h
  have h1 : firstCharOpt ("Error: " ++ String.mk l) = some 'E' := rfl
  rw [h] at h1
  have h2 : firstCharOpt timeoutText = some '⏱' := rfl
  rw [h2] at h1
  exact absurd h1 (by decide)

theorem pairSubCards_length : ∀ ts vs : List String,
    (pairSubCards ts vs).length = ts.length
  | [], vs => by cases vs <;> rfl
  | t :: ts, [] => by
    simp [pairSubCards, pairSubCards_length ts []]
  | t :: ts, v :: vs => by
    simp [pairSubCards, pairSubCards_length ts vs]

theorem pairSubCards_take : ∀ ts vs : List String,
    pairSubCards ts vs = pairSubCards ts (vs.take ts.length)
  | [], vs => by cases vs <;> rfl
  | t :: ts, [] => rfl
  | t :: ts, v :: vs => by
    simp only [pairSubCards, List.length_cons, List.take_succ_cons]
    exact congrArg _ (pairSubCards_take ts vs)

theorem pairSubCards_get?_none : ∀ (ts vs : List String) (i : Nat),
    i < ts.length → vs.get? i = none →
    (pairSubCards ts vs).get? i = ts.get? i
  | [], _, i, h1, _ => absurd h1 (Nat.not_lt_zero i)
  | t :: ts, [], 0, _, _ => rfl
  | t :: ts, [], i + 1, h1, _ => by
    simpa [pairSubCards] using
      pairSubCards_get?_none ts [] i (Nat.lt_of_succ_lt_succ h1) rfl
  | t :: ts, v :: vs, 0, _, h2 => by
    simp at h2
  | t :: ts, v :: vs, i + 1, h1, h2 => by
    simpa [pairSubCards] using
      pairSubCards_get?_none ts vs i (Nat.lt_of_succ_lt_succ h1) (by simpa using h2)

theorem foundText_ne_empty (n : Nat) : foundText n ≠ "" := by
  unfold foundText
  generalize toString n = x
  generalize (if n != 1 then "s" else "") = y
  obtain ⟨lx⟩ := x
  obtain ⟨ly⟩ := y
  intro h
  have h1 : firstCharOpt
      ("Found " ++ String.mk lx ++ " result" ++ String.mk ly ++ ". See table below.") =
      some 'F' := rfl
  rw [h] at h1
  exact Option.noConfusion h1

/-- C1: within one payload evaluation pass of `parseDaemoResponse`, a
normalized stored-preview candidate whose first row is not a summary object
always overwrites the retained table, while a candidate whose first row is
a summary object is retained only when no table has been retained yet; in
particular a payload with one stored preview `{sku:"A",qty:1}` and another
`{totalProducts:5}` retains the table `[{sku:"A",qty:1}]` in either
order. -/
theorem claim_c1_table_precedence :
    (∀ (table : Option (List Jv)) (fr : Jv) (rest : List Jv),
      isObjectLike fr = true → isSummaryObject fr = false →
      chooseTable table (fr :: rest) = some (fr :: rest)) ∧
    (∀ (t : List Jv) (fr : Jv) (rest : List Jv),
      isSummaryObject fr = true →
      chooseTable (some t) (fr :: rest) = some t) ∧
    (∀ (fr : Jv) (rest : List Jv),
      isSummaryObject fr = true →
      chooseTable none (fr :: rest) = some (fr :: rest)) ∧
    parseDaemoResponse evalNone (mkPayload [rowSku, rowTotal]) =
      ("Found 1 result. See table below.", some [rowSku]) ∧
    parseDaemoResponse evalNone (mkPayload [rowTotal, rowSku]) =
      ("Found 1 result. See table below.", some [rowSku]) := by
  refine ⟨?_, ?_, ?_, rfl, rfl⟩
  · intro table fr rest h1 h2
    simp [chooseTable, h1, h2]
  · intro t fr rest h
    simp [chooseTable, h]
  · intro fr rest h
    simp [chooseTable, h]

theorem claim_c1_table_precedence_witness :
    isObjectLike rowSku = true ∧ isSummaryObject rowSku = false ∧
    isSummaryObject rowTotal = true ∧
    chooseTable (some [rowTotal]) [rowSku] = some [rowSku] ∧
    chooseTable (some [rowSku]) [rowTotal] = some [rowSku] :=
  ⟨by decide, by decide, by decide,
   claim_c1_table_precedence.1 (some [rowTotal]) rowSku [] (by decide) (by decide),
   claim_c1_table_precedence.2.1 [rowSku] rowTotal [] (by decide)⟩

/-- C2 (modelled from the spec; the streaming accumulator is not among the
sources under study): merging incoming chunks into the running message text
appends incremental `delta` fragments and replaces the whole text on a full
snapshot: `[{delta:"a"},{delta:"b"}]` yields `"ab"` while
`[{text:"a"},{text:"b"}]` yields `"b"` — the last full snapshot wins and
snapshots are never concatenated. -/
theorem claim_c2_merge_semantics :
    mergeChunks [⟨some "a", none⟩, ⟨some "b", none⟩] = "ab" ∧
    mergeChunks [⟨none, some "a"⟩, ⟨none, some "b"⟩] = "b" ∧
    (∀ r d : String, mergeChunkText r ⟨some d, none⟩ = r ++ d) ∧
    (∀ r t : String, mergeChunkText r ⟨none, some t⟩ = t) :=
  ⟨rfl, rfl, fun _ _ => rfl, fun _ _ => rfl⟩

/-- C3: the CSV ingestor scans each line character by character with a
quote-toggle state — commas inside quotes do not split, every field is
trimmed — so `sku,name\n"A,1","Widget, Inc"` parses to exactly one row
`{sku:"A,1", name:"Widget, Inc"}`. -/
theorem claim_c3_csv_quoted_fields :
    parseCSV "sku,name\n\"A,1\",\"Widget, Inc\"" =
      [[("sku", "A,1"), ("name", "Widget, Inc")]] ∧
    csvSplitLine "\"a,b\",c" = ["a,b", "c"] ∧
    csvSplitLine "  a  , b " = ["a", "b"] :=
  ⟨rfl, rfl, rfl⟩

/-- C4 counterexample: with a request already in flight (`loading = true`
after sending "m1"), a further send attempt is a no-op — no new request
starts, nothing is cancelled or discarded, no placeholder is created — and
the final list for the pair contains message 1's exchange, not message 2's;
this falsifies the claim that a new request starts and cancels/discards the
previous in-flight request's message. -/
theorem claim_c4_counterexample :
    (chatRun evalNone [.send "m1"]).loading = true ∧
    chatStep evalNone (chatRun evalNone [.send "m1"]) (.send "m2") =
      chatRun evalNone [.send "m1"] ∧
    (chatRun evalNone
        [.send "m1", .send "m2",
         .finish (.ok (Jv.obj [("text", Jv.str "hello")]))]).messages =
      [mkUserMsg "m1", mkBotOk evalNone (Jv.obj [("text", Jv.str "hello")])] ∧
    countBot (chatRun evalNone
        [.send "m1", .send "m2",
         .finish (.ok (Jv.obj [("text", Jv.str "hello")]))]).messages = 1 :=
  ⟨rfl, rfl, rfl, rfl⟩

/-- C4 (amended): at most one chat request is ever in flight — but not by
cancellation: a send action attempted while a request is in flight is
ignored entirely (the state is unchanged and no request is issued), so the
pair "send 2 during 1" yields exactly the first request's exchange. -/
theorem claim_c4_single_flight_amended :
    (∀ (evalFn : String → Jv) (acts : List ChatAct),
      (chatRun evalFn acts).inflight ≤ 1) ∧
    (∀ (evalFn : String → Jv) (s : ChatState) (q : String),
      s.loading = true → chatStep evalFn s (.send q) = s) := by
  constructor
  · intro evalFn acts
    exact (chatRun_inv evalFn acts).1
  · intro evalFn s q h
    simp [chatStep, h]

theorem claim_c4_single_flight_amended_witness :
    ({ messages := [], loading := true, inflight := 1 } : ChatState).loading = true ∧
    chatStep evalNone { messages := [], loading := true, inflight := 1 } (.send "x") =
      { messages := [], loading := true, inflight := 1 } ∧
    (chatRun evalNone [.send "a", .send "b"]).inflight ≤ 1 :=
  ⟨rfl,
   claim_c4_single_flight_amended.2 evalNone
     { messages := [], loading := true, inflight := 1 } "x" rfl,
   claim_c4_single_flight_amended.1 evalNone [.send "a", .send "b"]⟩

/-- C5 counterexample: the string `"[]"` is accepted by strict JSON parsing,
yet `safeParsePreview` returns `null` for it rather than the parse result
(the guard short-circuits `""`, `"[]"` and `"{}"` before parsing). -/
theorem claim_c5_counterexample :
    jsonParse "[]" = some (Jv.arr []) ∧
    safeParsePreview evalNone (.str "[]") = Jv.null ∧
    Jv.null ≠ Jv.arr [] :=
  ⟨rfl, rfl, fun h => Jv.noConfusion h⟩

/-- C5 (amended): for every string preview whose trimmed form is non-empty
and neither `"[]"` nor `"{}"`, if strict JSON parsing accepts it then
`safeParsePreview` returns exactly the strict parse result without running
the permissive evaluator; and the permissive branch runs only on strings
whose trimmed form strict JSON parsing rejects. -/
theorem claim_c5_strict_json_first_amended :
    (∀ (evalFn : String → Jv) (s : String) (v : Jv),
      ¬(jsTrim s = "") → ¬(jsTrim s = "[]") → ¬(jsTrim s = "\x7b\x7d") →
      jsonParse (jsTrim s) = some v →
      safeParsePreviewB evalFn (.str s) = (v, false)) ∧
    (∀ (evalFn : String → Jv) (s : String),
      (safeParsePreviewB evalFn (.str s)).2 = true →
      jsonParse (jsTrim s) = none) := by
  constructor
  · intro evalFn s v h1 h2 h3 h4
    have e1 : (jsTrim s == "") = false := beq_eq_false_iff_ne.mpr h1
    have e2 : (jsTrim s == "[]") = false := beq_eq_false_iff_ne.mpr h2
    have e3 : (jsTrim s == "\x7b\x7d") = false := beq_eq_false_iff_ne.mpr h3
    simp [safeParsePreviewB, e1, e2, e3, h4]
  · intro evalFn s h
    simp only [safeParsePreviewB] at h
    split at h
    · simp at h
    · cases hj : jsonParse (jsTrim s) with
      | none => rfl
      | some v =>
        rw [hj] at h
        simp at h

theorem claim_c5_strict_json_first_amended_witness :
    ¬(jsTrim "5" = "") ∧ ¬(jsTrim "5" = "[]") ∧ ¬(jsTrim "5" = "\x7b\x7d") ∧
    jsonParse (jsTrim "5") = some (Jv.num "5") ∧
    safeParsePreviewB evalNone (.str "5") = (Jv.num "5", false) :=
  ⟨by decide, by decide, by decide, rfl,
   claim_c5_strict_json_first_amended.1 evalNone "5" (Jv.num "5")
     (by decide) (by decide) (by decide) rfl⟩

/-- C6 counterexample: for a payload whose text derivation is empty and
whose table has 2 rows, the extractor's text is
`"Found 2 results. See table below."`, not the claimed `"Found 2 results."`. -/
theorem claim_c6_counterexample :
    parseDaemoResponse evalNone
      (mkPayload [Jv.arr [Jv.obj [("sku", Jv.str "A")], Jv.obj [("sku", Jv.str "B")]]]) =
      ("Found 2 results. See table below.",
        some [Jv.obj [("sku", Jv.str "A")], Jv.obj [("sku", Jv.str "B")]]) ∧
    ("Found 2 results. See table below." : String) ≠ "Found 2 results." :=
  ⟨rfl, by decide⟩

/-- C6 (amended): when text derivation yields the empty string, a derived
table of N rows produces the text `"Found N result(s). See table below."`
(singular for N = 1) and no table produces the fixed notice
`"⚠️ No readable response received."`; the extractor's text output is never
empty. -/
theorem claim_c6_fallback_text_amended :
    (∀ (evalFn : String → Jv) (data : Jv),
      textPart data = "" →
      (∀ t, tablePart evalFn data = some t →
        (parseDaemoResponse evalFn data).1 = foundText t.length) ∧
      (tablePart evalFn data = none →
        (parseDaemoResponse evalFn data).1 = noReadableText)) ∧
    (∀ (evalFn : String → Jv) (data : Jv),
      (parseDaemoResponse evalFn data).1 ≠ "") := by
  constructor
  · intro evalFn data h
    constructor
    · intro t ht
      simp [parseDaemoResponse, h, ht]
    · intro ht
      simp [parseDaemoResponse, h, ht]
  · intro evalFn data
    by_cases h : textPart data = ""
    · cases ht : tablePart evalFn data with
      | none =>
        simp only [parseDaemoResponse, h, ht]
        decide
      | some t =>
        simp only [parseDaemoResponse, h, ht]
        simpa using foundText_ne_empty t.length
    · have e : (textPart data == "") = false := beq_eq_false_iff_ne.mpr h
      simpa [parseDaemoResponse, e] using h

theorem claim_c6_fallback_text_amended_witness :
    textPart (mkPayload [rowTotal]) = "" ∧
    tablePart evalNone (mkPayload [rowTotal]) = some [rowTotal] ∧
    (parseDaemoResponse evalNone (mkPayload [rowTotal])).1 = foundText 1 :=
  ⟨rfl, rfl,
   (claim_c6_fallback_text_amended.1 evalNone (mkPayload [rowTotal]) rfl).1 [rowTotal] rfl⟩

/-- C7 counterexample: during a request no bot placeholder exists at all
(the in-flight message list holds only the user message), and on failure
the error message is appended to the list rather than replacing anything;
this falsifies the claim that the error message replaces an in-flight
placeholder. -/
theorem claim_c7_counterexample :
    countBot (chatRun evalNone [.send "q"]).messages = 0 ∧
    (chatRun evalNone [.send "q"]).loading = true ∧
    chatRun evalNone [.send "q", .finish (.httpError 500)] =
      { messages := [mkUserMsg "q", mkBotErr (.httpError 500)],
        loading := false, inflight := 0 } ∧
    (chatRun evalNone [.send "q", .finish (.httpError 500)]).messages =
      (chatRun evalNone [.send "q"]).messages ++ [mkBotErr (.httpError 500)] :=
  ⟨rfl, rfl, rfl, rfl⟩

/-- C7 (amended): every request failure (non-success status, bad JSON,
timeout, network error) is surfaced by appending exactly one terminal bot
message with error status and no table field (no placeholder exists during
flight, so nothing is replaced); the timeout text differs from the text of
every other failure. -/
theorem claim_c7_error_surfacing_amended :
    (∀ (evalFn : String → Jv) (s : ChatState) (out : FetchOutcome),
      isFailureOutcome out = true → ¬(s.inflight = 0) →
      chatStep evalFn s (.finish out) =
        { messages := s.messages ++ [mkBotErr out], loading := false,
          inflight := s.inflight - 1 }) ∧
    (∀ out : FetchOutcome,
      (mkBotErr out).status = some MStatus.error ∧ (mkBotErr out).table = none) ∧
    (∀ out : FetchOutcome, isFailureOutcome out = true → out ≠ .timeout →
      errText out ≠ timeoutText) ∧
    errText .timeout = timeoutText := by
  refine ⟨?_, fun out => ⟨rfl, rfl⟩, ?_, rfl⟩
  · intro evalFn s out hf hz
    have hz2 : (s.inflight == 0) = false := by
      simpa using hz
    cases out with
    | ok body => exact absurd hf Bool.false_ne_true
    | httpError n => simp [chatStep, hz2]
    | badJson => simp [chatStep, hz2]
    | timeout => simp [chatStep, hz2]
    | netError m => simp [chatStep, hz2]
  · intro out hf hne
    cases out with
    | ok body => exact absurd hf Bool.false_ne_true
    | timeout => exact absurd rfl hne
    | httpError n => exact errorPrefix_ne_timeoutText _
    | badJson => exact errorPrefix_ne_timeoutText _
    | netError m =>
      by_cases hm : (m == "") = true
      · simp only [errText, hm, if_pos]
        decide
      · simp only [errText, hm, Bool.false_eq_true, if_neg, not_false_iff]
        exact errorPrefix_ne_timeoutText m

theorem claim_c7_error_surfacing_amended_witness :
    isFailureOutcome FetchOutcome.badJson = true ∧
    ¬((1 : Nat) = 0) ∧
    chatStep evalNone { messages := [], loading := true, inflight := 1 }
        (.finish .badJson) =
      { messages := [mkBotErr .badJson], loading := false, inflight := 0 } ∧
    FetchOutcome.badJson ≠ FetchOutcome.timeout ∧
    errText .badJson ≠ timeoutText :=
  ⟨rfl, by decide,
   claim_c7_error_surfacing_amended.1 evalNone
     { messages := [], loading := true, inflight := 1 } .badJson rfl (by decide),
   fun h => FetchOutcome.noConfusion h,
   claim_c7_error_surfacing_amended.2.2.1 .badJson rfl
     (fun h => FetchOutcome.noConfusion h)⟩

/-- C8 counterexample: in the header row `a,\uFEFFb` (byte-order mark before
`b`), the second header is stored as `b` — the byte-order mark is stripped
from a non-first header too, falsifying the claim that only the first
header is cleaned. -/
theorem claim_c8_counterexample :
    parseCSV "a,\uFEFFb\n1,2" = [[("a", "1"), ("b", "2")]] ∧
    ([[("a", "1"), ("b", "2")]] : List (List (String × String))) ≠
      [[("a", "1"), ("\uFEFFb", "2")]] :=
  ⟨rfl, by decide⟩

/-- C8 (amended): a leading byte-order mark is stripped from every header,
not only the first: the cleanup (`headerClean`) is mapped over the whole
header row, and a header cell starting with a byte-order mark cleans to the
trim of its remainder. -/
theorem claim_c8_bom_stripped_everywhere_amended :
    (∀ s : String, headerClean (String.mk ('\uFEFF' :: s.data)) = jsTrim s) ∧
    parseCSV "\uFEFFa,\uFEFFb\n1,2" = [[("a", "1"), ("b", "2")]] := by
  constructor
  · intro s
    obtain ⟨l⟩ := s
    rfl
  · rfl

/-- C9: every preview string that trims to `""`, `"[]"` or `"{}"` makes
`safeParsePreview` return `null` — even though `"[]"` and `"{}"` are valid
JSON — so such previews leave the retained table of the stored-item scan
unchanged. -/
theorem claim_c9_empty_structure_guard :
    (∀ (evalFn : String → Jv) (s : String),
      jsTrim s = "" ∨ jsTrim s = "[]" ∨ jsTrim s = "\x7b\x7d" →
      safeParsePreview evalFn (.str s) = Jv.null) ∧
    jsonParse "[]" = some (Jv.arr []) ∧
    jsonParse "\x7b\x7d" = some (Jv.obj []) ∧
    (∀ (evalFn : String → Jv) (table : Option (List Jv)) (s : String),
      jsTrim s = "" ∨ jsTrim s = "[]" ∨ jsTrim s = "\x7b\x7d" →
      applyStoredItem evalFn table (Jv.obj [("preview", Jv.str s)]) = table) := by
  have hnull : ∀ (evalFn : String → Jv) (s : String),
      jsTrim s = "" ∨ jsTrim s = "[]" ∨ jsTrim s = "\x7b\x7d" →
      safeParsePreview evalFn (.str s) = Jv.null := by
    intro evalFn s h
    rcases h with h | h | h <;>
      simp [safeParsePreview, safeParsePreviewB, h]
  refine ⟨hnull, rfl, rfl, ?_⟩
  intro evalFn table s h
  simp only [applyStoredItem, jvGet]
  by_cases ht : jvTruthy (Jv.str s) = true
  · simp only [List.find?, Option.map]
    rw [show (("preview", Jv.str s).1 == "preview") = true from rfl]
    simp only [ht, Bool.not_true, Bool.false_eq_true, if_false]
    rw [hnull evalFn s h]
  · simp only [List.find?, Option.map]
    rw [show (("preview", Jv.str s).1 == "preview") = true from rfl]
    have : jvTruthy (Jv.str s) = false := by
      cases hv : jvTruthy (Jv.str s)
      · rfl
      · exact absurd hv ht
    simp [this]

theorem claim_c9_empty_structure_guard_witness :
    (jsTrim " [] " = "" ∨ jsTrim " [] " = "[]" ∨ jsTrim " [] " = "\x7b\x7d") ∧
    safeParsePreview evalNone (.str " [] ") = Jv.null ∧
    applyStoredItem evalNone (some [rowSku]) (Jv.obj [("preview", Jv.str " [] ")]) =
      some [rowSku] :=
  ⟨by decide,
   claim_c9_empty_structure_guard.1 evalNone " [] " (by decide),
   claim_c9_empty_structure_guard.2.2.2 evalNone (some [rowSku]) " [] " (by decide)⟩

/-- C10: in `extractTextFromJSX`, sub-card titles are paired positionally
with bold-div values: a title with no corresponding bold value yields the
bare title line (no colon, no value), and bold values at indices beyond the
sub-card titles are dropped (the pairing depends only on the first
`ts.length` values and produces exactly one line per title); illustrated on
full extractions. -/
theorem claim_c10_jsx_pairing :
    (∀ (ts vs : List String) (i : Nat), i < ts.length → vs.get? i = none →
      (pairSubCards ts vs).get? i = ts.get? i) ∧
    (∀ ts vs : List String, pairSubCards ts vs = pairSubCards ts (vs.take ts.length)) ∧
    (∀ ts vs : List String, (pairSubCards ts vs).length = ts.length) ∧
    extractTextFromJSX
      "<CardTitle>Main</CardTitle><CardTitle>T1</CardTitle><CardTitle>T2</CardTitle><div class=font-bold>V1</div>" =
      "Main\nT1: V1\nT2" ∧
    extractTextFromJSX
      "<CardTitle>Main</CardTitle><CardTitle>T1</CardTitle><div class=font-bold>V1</div><div class=font-bold>V2</div>" =
      "Main\nT1: V1" :=
  ⟨pairSubCards_get?_none, pairSubCards_take, pairSubCards_length, rfl, rfl⟩

theorem claim_c10_jsx_pairing_witness :
    1 < (["T1", "T2"] : List String).length ∧
    (["V"] : List String).get? 1 = none ∧
    (pairSubCards ["T1", "T2"] ["V"]).get? 1 = (["T1", "T2"] : List String).get? 1 :=
  ⟨by decide, rfl,
   claim_c10_jsx_pairing.1 ["T1", "T2"] ["V"] 1 (by decide) rfl⟩

end Daemo
